import Mathlib

/-!
Verification of the Meta-Weight-Net training script (`src/main.py`).

The script wires two `ImplicitProblem`s (an inner ResNet32 classifier and an
outer meta-weight MLP) into a betty bilevel `Engine`.  We shallowly embed the
logic of the script itself: tensors of per-sample values become `List ℚ`, a batch is a
pair of an input list and a label list, the networks themselves (third-party
`torch` modules) are parameters of the embedded functions, and
`F.cross_entropy` with `reduction="none"` is abstracted by a per-sample loss
function `ce : List ℚ → ℕ → ℚ` applied row-wise (its default `"mean"`
reduction is the mean of the per-sample values).
-/

namespace MWN

/-- The command-line arguments of `main.py` that the embedded code reads
(`argparse` section, lines 18-50).  Float-valued hyperparameters are
modelled as rationals. -/
structure Args where
  rollback : Bool := false
  baseline : Bool := false
  retrain : Bool := false
  meta_net_hidden_size : ℕ := 100
  meta_net_num_layers : ℕ := 1
  lr : ℚ := 1/10
  momentum : ℚ := 9/10
  dampening : ℚ := 0
  nesterov : Bool := false
  weight_decay : ℚ := 5/10000
  meta_lr : ℚ := 1/100000
  meta_weight_decay : ℚ := 0
  dataset : String := "cifar10"

/-- Arithmetic mean of a list of rationals (`torch.mean`). -/
def mean (xs : List ℚ) : ℚ := xs.sum / xs.length

/-- `F.cross_entropy(outputs, labels, reduction="none")`: the per-sample loss
vector, one scalar per (output row, label) pair.  The pointwise loss `ce` is a
parameter (it is torch library code, not code of this repository). -/
def crossEntropyVector (ce : List ℚ → ℕ → ℚ) (outputs : List (List ℚ))
    (labels : List ℕ) : List ℚ :=
  List.zipWith ce outputs labels

/-- `F.cross_entropy(outputs, labels)` with the default `"mean"` reduction. -/
def crossEntropyMean (ce : List ℚ → ℕ → ℚ) (outputs : List (List ℚ))
    (labels : List ℕ) : ℚ :=
  mean (crossEntropyVector ce outputs labels)

/-- Index of the first maximum of a list (`torch.argmax(dim=1)` on one row),
auxiliary loop carrying the best index and value seen so far. -/
def argmaxAux (bi : ℕ) (bv : ℚ) (i : ℕ) : List ℚ → ℕ
  | [] => bi
  | x :: xs => if bv < x then argmaxAux i x (i + 1) xs else argmaxAux bi bv (i + 1) xs

/-- Index of the first maximum of a list; `0` on the empty list. -/
def argmaxIdx : List ℚ → ℕ
  | [] => 0
  | x :: xs => argmaxAux 0 x 1 xs

/-- References to the three dataloaders built by `build_dataloader`
(lines 63-80); the `configure_train_data_loader` methods of the problems return
one of them. -/
inductive DataLoaderRef
  | train
  | meta
  | test
deriving DecidableEq, Repr

/-- The optimizer constructed by the `configure_optimizer` method of a problem:
either `optim.SGD(lr, momentum, dampening, weight_decay, nesterov)` or
`optim.Adam(lr, weight_decay)`. -/
inductive OptimizerSpec
  | sgd (lr momentum dampening wd : ℚ) (nesterov : Bool)
  | adam (lr wd : ℚ)
deriving DecidableEq, Repr

namespace Outer

/-- `Outer.training_step` (lines 89-95): run the inner classifier on the
meta-validation batch and return the mean cross-entropy loss together with the
batch accuracy in percent.  The inner network is a parameter: the engine
dispatches `self.inner` to the module of the inner problem at its current
(post-unroll, i.e. updated) parameters. -/
def training_step {α : Type} (ce : List ℚ → ℕ → ℚ) (inner : α → List ℚ)
    (inputs : List α) (labels : List ℕ) : ℚ × ℚ :=
  let outputs := inputs.map inner
  let loss := crossEntropyMean ce outputs labels
  let acc := mean ((List.zipWith (fun o t => if argmaxIdx o = t then (1 : ℚ) else 0)
      outputs labels)) * 100
  (loss, acc)

/-- `Outer.configure_train_data_loader` (lines 97-98): the meta dataloader. -/
def configure_train_data_loader : DataLoaderRef := DataLoaderRef.meta

/-- `Outer.configure_optimizer` (lines 106-112): Adam on the parameters of the module with `lr=args.meta_lr` and `weight_decay=args.meta_weight_decay`. -/
def configure_optimizer (args : Args) : OptimizerSpec :=
  OptimizerSpec.adam args.meta_lr args.meta_weight_decay

end Outer

namespace Inner

/-- `Inner.training_step` (lines 119-129).  In baseline/retrain mode the plain
mean-reduced cross-entropy is returned.  Otherwise the per-sample loss vector
is reshaped to a column vector, detached (numerically the identity) and fed to
the outer meta-weight network (`outerNet`, applied row-wise since the MLP maps
one scalar loss to one scalar weight), and the returned loss is the mean of
the elementwise product `weight * loss`. -/
def training_step {α : Type} (args : Args) (module : α → List ℚ)
    (outerNet : ℚ → ℚ) (ce : List ℚ → ℕ → ℚ)
    (inputs : List α) (labels : List ℕ) : ℚ :=
  let outputs := inputs.map module
  if args.baseline || args.retrain then
    crossEntropyMean ce outputs labels
  else
    let loss_vector := crossEntropyVector ce outputs labels
    let weight := loss_vector.map outerNet
    mean (List.zipWith (fun w l => w * l) weight loss_vector)

/-- `Inner.configure_train_data_loader` (lines 131-132): the train dataloader. -/
def configure_train_data_loader : DataLoaderRef := DataLoaderRef.train

/-- `Inner.configure_optimizer` (lines 137-146): SGD with the command-line
hyperparameters. -/
def configure_optimizer (args : Args) : OptimizerSpec :=
  OptimizerSpec.sgd args.lr args.momentum args.dampening args.weight_decay args.nesterov

/-- The milestones of the `MultiStepLR` scheduler (line 150). -/
def milestones : List ℕ := [10000, 13000]

/-- The decay factor of the `MultiStepLR` scheduler (line 150). -/
def gamma : ℚ := 1/10

/-- `optim.lr_scheduler.MultiStepLR(optimizer, milestones, gamma)`: the
learning rate at step `s` is the base rate multiplied by `gamma` once for
every milestone that has been reached. -/
def multiStepLR (lr0 : ℚ) (ms : List ℕ) (g : ℚ) (s : ℕ) : ℚ :=
  lr0 * g ^ (ms.countP (fun m => decide (m ≤ s)))

/-- The learning rate of the inner optimizer at step `s` under the scheduler
returned by `Inner.configure_scheduler` (lines 148-152). -/
def lrAt (args : Args) (s : ℕ) : ℚ := multiStepLR args.lr milestones gamma s

end Inner

/-- The initial value of the global `best_acc` (line 155). -/
def best_acc_init : ℚ := -1

/-- The `best_acc` update performed inside `ReweightingEngine.validation`
(lines 171-172): `if best_acc < acc: best_acc = acc`. -/
def updateBest (best acc : ℚ) : ℚ := if best < acc then acc else best

/-- The value of the global `best_acc` after a run whose successive
validations computed the accuracies `accs`, folding the line 171-172 update
from the initial `-1`. -/
def runBestAcc (accs : List ℚ) : ℚ := accs.foldl updateBest best_acc_init

/-- The observable outcome of one `ReweightingEngine.validation` call: the
accuracy computed on the test set, the updated global `best_acc`, and whether
the `torch.save` checkpoint calls were executed. -/
structure ValOutcome where
  acc : ℚ
  best : ℚ
  saved : Bool
deriving DecidableEq, Repr

/-- `ReweightingEngine.validation` (lines 158-181).  It scans the full test
dataloader (a list of batches of inputs and integer targets), counts the
samples whose predicted class (`argmax` of the output row of the inner network)
equals the target, computes `acc = correct / total * 100`, raises the global
`best_acc` if beaten, and unconditionally saves the inner and outer state
whenever neither `--retrain` nor `--baseline` is set. -/
def ReweightingEngine.validation {α : Type} (args : Args) (inner : α → List ℚ)
    (testData : List (List α × List ℕ)) (prevBest : ℚ) : ValOutcome :=
  let correct : ℕ := testData.foldl
    (fun c b => c + (List.zipWith (fun x t => argmaxIdx (inner x) == t) b.1 b.2).count true) 0
  let total : ℕ := testData.foldl (fun t b => t + b.1.length) 0
  let acc : ℚ := (correct : ℚ) / (total : ℚ) * 100
  { acc := acc
    best := updateBest prevBest acc
    saved := !args.retrain && !args.baseline }

/-- The fields of the betty `EngineConfig` that `main.py` sets (lines 186-192). -/
structure EngineConfigM where
  train_iters : ℕ
  valid_step : ℕ
  roll_back : Bool
deriving DecidableEq, Repr

/-- `engine_config` (lines 186-192): 15000 training iterations, a validation
every 500 steps, rollback from `--rollback`. -/
def engine_config (args : Args) : EngineConfigM :=
  { train_iters := 15000, valid_step := 500, roll_back := args.rollback }

/-- Modelled from the spec: `engine.run()` (line 208) is betty library code,
not part of this repository.  The driver in the spec "runs the engine for a fixed
number of iterations, periodically evaluates test accuracy": we model the run
as the finite list of its training steps `0, ..., train_iters - 1`. -/
def engineRunSteps (cfg : EngineConfigM) : List ℕ := List.range cfg.train_iters

/-- Modelled from the spec: the steps of the run after which the periodic
validation fires, i.e. every `valid_step`-th training step (steps
`valid_step, 2*valid_step, ...` counting completed steps from 1). -/
def validationSteps (cfg : EngineConfigM) : List ℕ :=
  (engineRunSteps cfg).filter (fun s => (s + 1) % cfg.valid_step = 0)

/-- The two `ImplicitProblem` instances built at lines 193-194. -/
inductive ProblemRef
  | outer
  | inner
deriving DecidableEq, Repr

/-- The `problems` list handed to the engine (lines 196-200). -/
def problems (args : Args) : List ProblemRef :=
  if args.baseline || args.retrain then [ProblemRef.inner]
  else [ProblemRef.outer, ProblemRef.inner]

/-- The upper-to-lower dependency map `u2l` (lines 198, 201), as an
association list. -/
def u2l (args : Args) : List (ProblemRef × List ProblemRef) :=
  if args.baseline || args.retrain then []
  else [(ProblemRef.outer, [ProblemRef.inner])]

/-- The lower-to-upper dependency map `l2u` (lines 198, 202), as an
association list. -/
def l2u (args : Args) : List (ProblemRef × List ProblemRef) :=
  if args.baseline || args.retrain then []
  else [(ProblemRef.inner, [ProblemRef.outer])]

/-- `dependencies = {"l2u": l2u, "u2l": u2l}` (line 203). -/
def dependencies (args : Args) :
    List (ProblemRef × List ProblemRef) × List (ProblemRef × List ProblemRef) :=
  (l2u args, u2l args)

/-- Python truthiness values occurring in the expression
`args.dataset == "cifar10" and 10 or 100` (line 135): booleans and ints. -/
inductive PyVal
  | pyBool (b : Bool)
  | pyInt (n : ℤ)
deriving DecidableEq, Repr

/-- Python truthiness: `False` and `0` are falsy. -/
def truthy : PyVal → Bool
  | PyVal.pyBool b => b
  | PyVal.pyInt n => n != 0

/-- Python short-circuit `and`: returns the left operand if it is falsy,
otherwise the right operand. -/
def pyAnd (a b : PyVal) : PyVal := if truthy a then b else a

/-- Python short-circuit `or`: returns the left operand if it is truthy,
otherwise the right operand. -/
def pyOr (a b : PyVal) : PyVal := if truthy a then a else b

/-- The value of the Python expression
`args.dataset == "cifar10" and 10 or 100` (line 135). -/
def numClassesExpr (dataset : String) : PyVal :=
  pyOr (pyAnd (PyVal.pyBool (dataset == "cifar10")) (PyVal.pyInt 10)) (PyVal.pyInt 100)

/-- `Inner.configure_module` (lines 134-135) returns
`ResNet32(args.dataset == "cifar10" and 10 or 100)`; we record the class-count
argument passed to the `ResNet32` constructor. -/
def resNet32Classes (args : Args) : PyVal := numClassesExpr args.dataset

/-- Rectified linear unit. -/
def relu (x : ℝ) : ℝ := max x 0

/-- Dot product of two weight/activation vectors. -/
def dot (w x : List ℝ) : ℝ := (List.zipWith (fun a b => a * b) w x).sum

/-- One hidden dense layer with ReLU activation: row `i` of the weight matrix
with bias `i` produces activation `relu (w_i . x + b_i)`. -/
def denseLayer (w : List (List ℝ)) (b : List ℝ) (x : List ℝ) : List ℝ :=
  List.zipWith (fun row bi => relu (dot row x + bi)) w b

/-- The logistic sigmoid. -/
noncomputable def sigmoid (x : ℝ) : ℝ := 1 / (1 + Real.exp (-x))

/-- Parameters of the meta-weight MLP: hidden (weights, biases) layers,
followed by a final affine map to a scalar. -/
structure MLPParams where
  layers : List (List (List ℝ) × List ℝ)
  wOut : List ℝ
  bOut : ℝ

/-- Modelled from the spec: `MLP` lives in `model.py`, which is not under
`src/` (only `from model import *` is).  The spec describes it as "a small
multilayer perceptron mapping a scalar per-sample loss to a scalar weight in
[0,1]-ish range": hidden dense layers with ReLU on the scalar input, then a
final affine layer squashed by a sigmoid into `[0,1]`. -/
noncomputable def MLP (p : MLPParams) (lossVal : ℝ) : ℝ :=
  let h := p.layers.foldl (fun h l => denseLayer l.1 l.2 h) [lossVal]
  sigmoid (dot p.wOut h + p.bOut)

/-! Helper lemmas shared by the claim theorems. -/

theorem zipWith_mul_map (f : ℚ → ℚ) (xs : List ℚ) :
    List.zipWith (fun w l => w * l) (xs.map f) xs = xs.map (fun x => f x * x) := by
  induction xs with
  | nil => rfl
  | cons x xs ih => simp [ih]

theorem updateBest_eq_max (b a : ℚ) : updateBest b a = max b a := by
  unfold updateBest
  rcases lt_or_ge b a with h | h
  · simp [h, max_eq_right h.le]
  · simp [not_lt.mpr h, max_eq_left h]

theorem foldl_updateBest_eq_max (l : List ℚ) (b : ℚ) :
    l.foldl updateBest b = l.foldl max b := by
  induction l generalizing b with
  | nil => rfl
  | cons x xs ih => simp [List.foldl_cons, updateBest_eq_max, ih]

theorem le_foldl_max (l : List ℚ) (b : ℚ) : b ≤ l.foldl max b := by
  induction l generalizing b with
  | nil => simp
  | cons x xs ih => exact le_trans (le_max_left b x) (ih (max b x))

theorem mem_le_foldl_max (l : List ℚ) (b a : ℚ) (h : a ∈ l) : a ≤ l.foldl max b := by
  induction l generalizing b with
  | nil => cases h
  | cons x xs ih =>
    rcases List.mem_cons.mp h with h | h
    · subst h
      exact le_trans (le_max_right b a) (le_foldl_max xs _)
    · exact ih (max b x) h

theorem foldl_max_mem (l : List ℚ) (b : ℚ) : l.foldl max b ∈ b :: l := by
  induction l generalizing b with
  | nil => simp
  | cons x xs ih =>
    have hm := ih (max b x)
    rcases List.mem_cons.mp hm with h | h
    · rcases max_choice b x with hc | hc
      · rw [List.foldl_cons, h, hc]
        exact List.mem_cons_self b (x :: xs)
      · rw [List.foldl_cons, h, hc]
        exact List.mem_cons_of_mem b (List.mem_cons_self x xs)
    · exact List.mem_cons_of_mem b (List.mem_cons_of_mem x h)

theorem sigmoid_pos (x : ℝ) : 0 < sigmoid x := by
  unfold sigmoid
  positivity

theorem sigmoid_le_one (x : ℝ) : sigmoid x ≤ 1 := by
  unfold sigmoid
  rw [div_le_one (by positivity)]
  linarith [(Real.exp_pos (-x)).le]

/-! The claim theorems. -/

/-- C1: when neither `--baseline` nor `--retrain` is set, `Inner.training_step`
returns the mean over the batch of `w_i * l_i`, where `l_i` is the per-sample
unreduced cross-entropy loss of the output of the inner network against the
labels and `w_i` is the outer network applied to that (detached, reshaped)
per-sample loss: the per-sample losses are reweighted before averaging. -/
theorem inner_training_step_reweighted {α : Type} (args : Args)
    (hb : args.baseline = false) (hr : args.retrain = false)
    (module : α → List ℚ) (outerNet : ℚ → ℚ) (ce : List ℚ → ℕ → ℚ)
    (inputs : List α) (labels : List ℕ) :
    Inner.training_step args module outerNet ce inputs labels
      = mean ((crossEntropyVector ce (inputs.map module) labels).map
          (fun l => outerNet l * l)) := by
  unfold Inner.training_step
  rw [hb, hr]
  simp [zipWith_mul_map]

/-- Witness for C1 at a concrete batch. -/
theorem inner_training_step_reweighted_witness :
    ({} : Args).baseline = false ∧ ({} : Args).retrain = false ∧
    Inner.training_step {} (fun q : ℚ => [q]) (fun l => l + 1)
        (fun o t => o.headD 0 + (t : ℚ)) [2, 3] [1, 0]
      = mean ((crossEntropyVector (fun o t => o.headD 0 + (t : ℚ))
          (([2, 3] : List ℚ).map (fun q : ℚ => [q])) [1, 0]).map
            (fun l => (l + 1) * l)) :=
  ⟨rfl, rfl, inner_training_step_reweighted {} rfl rfl _ _ _ _ _⟩

/-- C4: reweighting is disabled exactly in baseline/retrain mode: there
`Inner.training_step` returns the plain mean-reduced cross-entropy with no
outer weight applied, and the engine is given only the inner problem with
empty dependency maps. -/
theorem baseline_retrain_plain_loss {α : Type} (args : Args)
    (h : args.baseline = true ∨ args.retrain = true)
    (module : α → List ℚ) (outerNet : ℚ → ℚ) (ce : List ℚ → ℕ → ℚ)
    (inputs : List α) (labels : List ℕ) :
    Inner.training_step args module outerNet ce inputs labels
        = crossEntropyMean ce (inputs.map module) labels
    ∧ problems args = [ProblemRef.inner]
    ∧ u2l args = [] ∧ l2u args = [] := by
  have hor : (args.baseline || args.retrain) = true := by
    rcases h with h | h <;> simp [h]
  refine ⟨?_, ?_, ?_, ?_⟩ <;> simp [Inner.training_step, problems, u2l, l2u, hor]

/-- Witness for C4 with `--baseline` set. -/
theorem baseline_retrain_plain_loss_witness :
    (({ baseline := true } : Args).baseline = true ∨
        ({ baseline := true } : Args).retrain = true) ∧
    (Inner.training_step { baseline := true } (fun q : ℚ => [q]) (fun l => l + 1)
        (fun o t => o.headD 0 + (t : ℚ)) [2, 3] [1, 0]
      = crossEntropyMean (fun o t => o.headD 0 + (t : ℚ))
          (([2, 3] : List ℚ).map (fun q : ℚ => [q])) [1, 0]
    ∧ problems { baseline := true } = [ProblemRef.inner]
    ∧ u2l { baseline := true } = [] ∧ l2u { baseline := true } = []) :=
  ⟨Or.inl rfl,
   baseline_retrain_plain_loss { baseline := true } (Or.inl rfl) _ _ _ _ _⟩

/-- C5: in meta-learning mode the dependency graph is mutual: `u2l` sends the
outer problem to exactly the inner problem and `l2u` sends the inner problem
to exactly the outer problem. -/
theorem meta_dependencies_mutual (args : Args)
    (hb : args.baseline = false) (hr : args.retrain = false) :
    u2l args = [(ProblemRef.outer, [ProblemRef.inner])]
    ∧ l2u args = [(ProblemRef.inner, [ProblemRef.outer])]
    ∧ problems args = [ProblemRef.outer, ProblemRef.inner]
    ∧ dependencies args = (l2u args, u2l args) := by
  refine ⟨?_, ?_, ?_, rfl⟩ <;> simp [u2l, l2u, problems, hb, hr]

/-- Witness for C5 at the default arguments. -/
theorem meta_dependencies_mutual_witness :
    ({} : Args).baseline = false ∧ ({} : Args).retrain = false ∧
    (u2l {} = [(ProblemRef.outer, [ProblemRef.inner])]
    ∧ l2u {} = [(ProblemRef.inner, [ProblemRef.outer])]
    ∧ problems {} = [ProblemRef.outer, ProblemRef.inner]
    ∧ dependencies {} = (l2u {}, u2l {})) :=
  ⟨rfl, rfl, meta_dependencies_mutual {} rfl rfl⟩

/-- C10: the class count handed to the `ResNet32` constructor is `10` exactly
when `--dataset` is `"cifar10"`, and `100` for every other dataset string:
the Python expression `args.dataset == "cifar10" and 10 or 100` evaluates to
`10` iff the dataset is `"cifar10"`. -/
theorem resnet32_num_classes (args : Args) :
    (resNet32Classes args = PyVal.pyInt 10 ↔ args.dataset = "cifar10")
    ∧ (args.dataset ≠ "cifar10" → resNet32Classes args = PyVal.pyInt 100) := by
  unfold resNet32Classes numClassesExpr pyOr pyAnd truthy
  by_cases h : args.dataset = "cifar10" <;> simp [h]

/-- Witness for C10 on the datasets `"cifar10"` and `"cifar100"`. -/
theorem resnet32_num_classes_witness :
    resNet32Classes {} = PyVal.pyInt 10
    ∧ ({ dataset := "cifar100" } : Args).dataset ≠ "cifar10"
    ∧ resNet32Classes { dataset := "cifar100" } = PyVal.pyInt 100 :=
  ⟨(resnet32_num_classes {}).1.mpr rfl, by decide,
   (resnet32_num_classes { dataset := "cifar100" }).2 (by decide)⟩

/-- C2 counterexample: in meta mode (default arguments), a validation whose
accuracy (here `0`) does NOT improve on the previous best (here `50`) still
executes the `torch.save` checkpoint calls, so a checkpoint is not written
"only when a validation improves on the previous best accuracy". -/
theorem validation_saves_without_improvement :
    (ReweightingEngine.validation {} (fun _ : ℕ => [1, 0]) [([0], [1])] 50).saved = true
    ∧ ¬ (50 < (ReweightingEngine.validation {} (fun _ : ℕ => [1, 0]) [([0], [1])] 50).acc) := by
  constructor
  · rfl
  · show ¬ ((50 : ℚ) < (0 : ℕ) / (1 : ℕ) * 100)
    norm_num

/-- C2 amended: at every validation the inner and outer states are saved
(under step-indexed filenames) exactly when neither `--retrain` nor
`--baseline` is set, regardless of whether the accuracy improved; `best_acc`
is updated to the maximum of its previous value and the new accuracy but does
not gate the checkpointing. -/
theorem validation_always_saves_in_meta_mode {α : Type} (args : Args)
    (inner : α → List ℚ) (testData : List (List α × List ℕ)) (prevBest : ℚ) :
    (ReweightingEngine.validation args inner testData prevBest).saved
        = (!args.retrain && !args.baseline)
    ∧ (ReweightingEngine.validation args inner testData prevBest).best
        = max prevBest (ReweightingEngine.validation args inner testData prevBest).acc :=
  ⟨rfl, updateBest_eq_max prevBest _⟩

/-- C3: `Outer.training_step` returns (as its loss component) the mean
cross-entropy of the predictions of the inner network on the meta batch, the
outer train dataloader is the meta dataloader, and the outer optimizer is
Adam with `lr=args.meta_lr` and `weight_decay=args.meta_weight_decay`.  The
statement is quantified over the inner network function, so it applies in
particular to the updated inner parameters the engine dispatches
`self.inner` to after the inner unroll. -/
theorem outer_step_loader_optimizer {α : Type} (args : Args)
    (ce : List ℚ → ℕ → ℚ) (inner : α → List ℚ)
    (inputs : List α) (labels : List ℕ) :
    (Outer.training_step ce inner inputs labels).1
        = crossEntropyMean ce (inputs.map inner) labels
    ∧ Outer.configure_train_data_loader = DataLoaderRef.meta
    ∧ Outer.configure_optimizer args
        = OptimizerSpec.adam args.meta_lr args.meta_weight_decay :=
  ⟨rfl, rfl, rfl⟩

/-- C6: the engine configuration fixes 15000 training iterations with a
validation every 500 steps; the run is a finite list of 15000 steps (hence
the training loop terminates) and validation fires exactly at the 30 steps
that complete a multiple of 500. -/
theorem engine_fixed_iterations_periodic_validation (args : Args) :
    (engine_config args).train_iters = 15000
    ∧ (engine_config args).valid_step = 500
    ∧ (engineRunSteps (engine_config args)).length = 15000
    ∧ (∀ s, s ∈ validationSteps (engine_config args)
        ↔ s < 15000 ∧ (s + 1) % 500 = 0) := by
  refine ⟨rfl, rfl, by simp [engineRunSteps, engine_config], ?_⟩
  intro s
  simp [validationSteps, engineRunSteps, engine_config, List.mem_filter,
    List.mem_range]

/-- C7: the inner optimizer is SGD with the command-line learning rate,
momentum, dampening, weight decay and nesterov flag, and the `MultiStepLR`
schedule keeps the learning rate at `lr` before step 10000, multiplies it by
`0.1` from step 10000 and by `0.1` again from step 13000; consequently the
learning rate is non-increasing over training (for a nonnegative base rate). -/
theorem inner_optimizer_and_lr_schedule (args : Args) (hlr : 0 ≤ args.lr) :
    Inner.configure_optimizer args
        = OptimizerSpec.sgd args.lr args.momentum args.dampening
            args.weight_decay args.nesterov
    ∧ (∀ s, s < 10000 → Inner.lrAt args s = args.lr)
    ∧ (∀ s, 10000 ≤ s → s < 13000 → Inner.lrAt args s = args.lr * (1/10))
    ∧ (∀ s, 13000 ≤ s → Inner.lrAt args s = args.lr * (1/100))
    ∧ (∀ s t, s ≤ t → Inner.lrAt args t ≤ Inner.lrAt args s) := by
  have hc : ∀ s, (Inner.milestones.countP (fun m => decide (m ≤ s)))
      = (if 10000 ≤ s then 1 else 0) + (if 13000 ≤ s then 1 else 0) := by
    intro s
    simp only [Inner.milestones, List.countP_cons, List.countP_nil]
    split_ifs <;> simp_all
  have hval : ∀ s, Inner.lrAt args s
      = args.lr * (1/10 : ℚ) ^ ((if 10000 ≤ s then 1 else 0) + (if 13000 ≤ s then 1 else 0)) := by
    intro s
    unfold Inner.lrAt Inner.multiStepLR Inner.gamma
    rw [hc]
  refine ⟨rfl, ?_, ?_, ?_, ?_⟩
  · intro s hs
    rw [hval]
    rw [if_neg (by omega), if_neg (by omega)]
    norm_num
  · intro s hs1 hs2
    rw [hval]
    rw [if_pos hs1, if_neg (by omega)]
    norm_num
  · intro s hs
    rw [hval]
    rw [if_pos (by omega), if_pos hs]
    norm_num
  · intro s t hst
    rw [hval, hval]
    refine mul_le_mul_of_nonneg_left ?_ hlr
    refine pow_le_pow_of_le_one (by norm_num) (by norm_num) ?_
    split_ifs <;> omega

/-- Witness for C7 at the default arguments. -/
theorem inner_optimizer_and_lr_schedule_witness :
    0 ≤ ({} : Args).lr ∧ Inner.lrAt {} 13000 ≤ Inner.lrAt {} 0 :=
  ⟨by norm_num [Args.lr],
   (inner_optimizer_and_lr_schedule {} (by norm_num [Args.lr])).2.2.2.2
      0 13000 (by omega)⟩

/-- C8: for every parameter setting and every scalar per-sample loss input,
the meta-weight `MLP` outputs a weight in the interval `[0, 1]` (the final
sigmoid squashes the output). -/
theorem mlp_output_in_unit_interval (p : MLPParams) (x : ℝ) :
    0 ≤ MLP p x ∧ MLP p x ≤ 1 := by
  unfold MLP
  exact ⟨(sigmoid_pos _).le, sigmoid_le_one _⟩

/-- C9: `best_acc` starts at `-1`, each validation update replaces it by the
maximum of its previous value and the freshly computed accuracy (so it is
monotonically non-decreasing), and after a run with at least one validation
(all accuracies being nonnegative, as `100 * correct / total` is) the final
`best_acc` printed is exactly the maximum accuracy observed. -/
theorem best_acc_monotone_and_max {α : Type} (accs : List ℚ)
    (h0 : accs ≠ []) (hpos : ∀ a ∈ accs, 0 ≤ a)
    (args : Args) (inner : α → List ℚ)
    (testData : List (List α × List ℕ)) (prevBest : ℚ) :
    best_acc_init = -1
    ∧ (ReweightingEngine.validation args inner testData prevBest).best
        = max prevBest (ReweightingEngine.validation args inner testData prevBest).acc
    ∧ (∀ b a, b ≤ updateBest b a)
    ∧ runBestAcc accs ∈ accs
    ∧ (∀ a ∈ accs, a ≤ runBestAcc accs) := by
  have hfold : runBestAcc accs = accs.foldl max (-1) := by
    unfold runBestAcc best_acc_init
    exact foldl_updateBest_eq_max accs (-1)
  refine ⟨rfl, updateBest_eq_max prevBest _, ?_, ?_, ?_⟩
  · intro b a
    rw [updateBest_eq_max]
    exact le_max_left b a
  · rcases List.exists_mem_of_ne_nil accs h0 with ⟨a, ha⟩
    have hmem := foldl_max_mem accs (-1)
    rcases List.mem_cons.mp hmem with h | h
    · exfalso
      have h1 : a ≤ accs.foldl max (-1) := mem_le_foldl_max accs (-1) a ha
      have h2 : (0 : ℚ) ≤ a := hpos a ha
      rw [h] at h1
      linarith
    · rw [hfold]
      exact h
  · intro a ha
    rw [hfold]
    exact mem_le_foldl_max accs (-1) a ha

/-- Witness for C9 on the accuracy sequence `[50, 30]`. -/
theorem best_acc_monotone_and_max_witness :
    ([50, 30] : List ℚ) ≠ [] ∧ (∀ a ∈ ([50, 30] : List ℚ), 0 ≤ a)
    ∧ runBestAcc [50, 30] ∈ ([50, 30] : List ℚ) :=
  ⟨by decide, by decide,
   (best_acc_monotone_and_max [50, 30] (by decide) (by decide)
      ({} : Args) (fun _ : ℕ => [1]) [] 0).2.2.2.1⟩

end MWN
